import Mathlib

/-!
Verification of the HIR lowering stage (`src/svlog/hir/lowering.rs`).

This file gives a shallow embedding of the lowering routines that the
claims refer to, translated from the Rust source, and proves properties
about them.

Modelling conventions:
* Interned names, source spans and node ids are represented by `Nat`.
* `cx.map_ast_with_parent` allocates a fresh node id; where the identity
  of the allocated id matters we thread an explicit `Nat` counter, and
  where only the referenced syntax node matters (expression tokens inside
  events and patterns) the id is represented by the token of the node it
  was allocated for.
* `cx.emit` is modelled by returning an explicit list of structured
  diagnostics; the `warn!`/`error!` log macros (which do not reach the
  diagnostics sink) are modelled by a separate list of `Log` entries.
* Rust `Result<T, ()>` is `Except Unit T`; a Rust panic (`expect`) is the
  distinguished `Outcome.panicked` constructor.
* `BigInt` is `Int`, `BigRational` is `ℚ`, `BitVec` is `List Bool`.
-/

namespace Moore

/-- Interned identifier names (`Name`). -/
abbrev Name := Nat

/-- Source spans; only their identity matters to the claims. -/
abbrev Span := Nat

/-- Node ids handed out by the dispatcher. -/
abbrev NodeId := Nat

/-- Opaque token standing for an `ast::Expr` syntax node. -/
abbrev ExprTok := Nat

/-- Diagnostic severities (`DiagBuilder2::error` / `DiagBuilder2::warning`). -/
inductive Severity where
  | error
  | warning
deriving DecidableEq

/-- Structured diagnostics emitted through `cx.emit`.  Each constructor
stands for one `DiagBuilder2` message of `lowering.rs`, carrying the
name/span data attached to it. -/
inductive Diag where
  /-- "port `..` declared multiple times" (spans: new decl, previous decl). -/
  | portDeclaredMultipleTimes (name : Name) (span prevSpan : Span)
  /-- "port variable `..` declared multiple times" (spans: new, previous). -/
  | portVarDeclaredMultipleTimes (name : Name) (span prevSpan : Span)
  /-- "port net `..` declared multiple times" (spans: new, previous). -/
  | portNetDeclaredMultipleTimes (name : Name) (span prevSpan : Span)
  /-- "port `..` is complete; additional declaration forbidden". -/
  | portAlreadyComplete (name : Name) (span declSpan : Span)
  /-- "net port `..` redeclared as variable". -/
  | netPortRedeclaredAsVariable (name : Name) (span declSpan : Span)
  /-- "variable port `..` redeclared as net". -/
  | varPortRedeclaredAsNet (name : Name) (span declSpan : Span)
  /-- "port `..` doubly declared as variable and net". -/
  | portDoublyDeclared (name : Name) (varSpan netSpan declSpan : Span)
  /-- "port `..` has contradicting signs" (spans: port decl, extra decl). -/
  | contradictingSigns (name : Name) (portSpan addSpan : Span)
  /-- "`..` is not a valid integer literal". -/
  | notValidIntegerLiteral (span : Span)
  /-- "`..` is not a valid integer base". -/
  | notValidIntegerBase (base : Char) (span : Span)
  /-- "`..` is not a valid integer size". -/
  | notValidIntegerSize (span : Span)
  /-- "`..` is too large" (a warning). -/
  | tooLarge (span : Span)
  /-- "`..` is not a number literal". -/
  | notNumberLiteral (span : Span)
  /-- "`..` not a positional pattern" (spans: offending field, deciding field). -/
  | notPositionalPattern (span decidingSpan : Span)
  /-- "`..` after repeat pattern". -/
  | fieldAfterRepeatPattern (span : Span)
  /-- "`..` not a named pattern" (spans: offending field, deciding field). -/
  | notNamedPattern (span decidingSpan : Span)
  /-- "`..` cannot appear in a package". -/
  | cannotAppearInPackage (span : Span)
  /-- `cx.unimp` / `cx.unimp_msg`: fatal "unimplemented" diagnostics. -/
  | unimplemented (span : Span)
deriving DecidableEq

/-- Severity of each diagnostic, as constructed in the source. -/
def Diag.severity : Diag → Severity
  | .tooLarge _ => .warning
  | _ => .error

/-- Entries written to the textual log via the `warn!` macro.  These do
not reach the diagnostics sink. -/
inductive Log where
  /-- `warn!("skipping unsupported {:?}", item)` in `lower_module_block`. -/
  | skipUnsupportedItem
  /-- `warn!("ignoring unsupported subroutine `{}`", ..)` in `lower_package`. -/
  | ignoreUnsupportedSubroutine (name : Name)
deriving DecidableEq

/-- Outcome of a lowering routine that may also panic (Rust `expect`).
`ok`/`err` mirror `Result<T, ()>`; `panicked` is a process abort. -/
inductive Outcome (α : Type) where
  | ok (val : α)
  | err
  | panicked (msg : String)
deriving DecidableEq

/-! ### Number parsing (models of the `num` / `std` parsing primitives)

`BigInt::parse_bytes(buf, radix)` and `str::parse::<BigInt>()` both go
through `from_str_radix`: an optional leading sign followed by a
non-empty run of digits valid for the radix. -/

/-- Numeric value of one ASCII digit character (0-9, a-z, A-Z). -/
def charDigitVal (c : Char) : Option Nat :=
  if '0' ≤ c ∧ c ≤ '9' then Option.some (c.toNat - '0'.toNat)
  else if 'a' ≤ c ∧ c ≤ 'z' then Option.some (c.toNat - 'a'.toNat + 10)
  else if 'A' ≤ c ∧ c ≤ 'Z' then Option.some (c.toNat - 'A'.toNat + 10)
  else Option.none

/-- Parse an unsigned digit run in the given radix; `none` on an empty
string or any character that is not a digit below the radix. -/
def parseRadix (radix : Nat) (s : List Char) : Option Nat :=
  if s.isEmpty then Option.none
  else
    s.foldlM
      (fun acc c =>
        match charDigitVal c with
        | Option.some d =>
            if d < radix then Option.some (acc * radix + d) else Option.none
        | Option.none => Option.none)
      0

/-- Model of `from_str_radix`: optional leading sign, then digits. -/
def parseSigned (radix : Nat) (s : List Char) : Option Int :=
  match s with
  | '-' :: rest => (parseRadix radix rest).map (fun n => -(n : Int))
  | '+' :: rest => (parseRadix radix rest).map (fun n => (n : Int))
  | _ => (parseRadix radix s).map (fun n => (n : Int))

/-- Model of `str::parse::<usize>` for the size prefix of a based literal. -/
def parseUsize (s : List Char) : Option Nat :=
  match s with
  | '+' :: rest => parseRadix 10 rest
  | _ => parseRadix 10 s

/-- Model of `BigInt::bits()`: the number of bits of the magnitude
(`0` for zero).  Defined with an explicit fuel argument so that it is
structurally recursive and kernel-reducible. -/
def bitWidthAux : Nat → Nat → Nat
  | 0, _ => 0
  | fuel + 1, n => if n = 0 then 0 else bitWidthAux fuel (n / 2) + 1

/-- `bitWidth n` is the bit length of `n` (`BigInt::bits` on the magnitude). -/
def bitWidth (n : Nat) : Nat := bitWidthAux n n

/-! ### Based integer literals

Translation of the `ast::LiteralExpr(Lit::BasedInteger(..))` branch of
`lower_expr` (`lowering.rs` lines 1066-1161). -/

/-- The `hir::ExprKind::IntConst` payload assembled for a based literal. -/
structure IntConst where
  width : Nat
  value : Int
  signed : Bool
  special_bits : List Bool
  x_bits : List Bool
deriving DecidableEq

/-- Radix selection for the base letter (fatal on any other letter). -/
def radixOf (base : Char) : Option Nat :=
  match base with
  | 'h' => Option.some 16
  | 'd' => Option.some 10
  | 'o' => Option.some 8
  | 'b' => Option.some 2
  | _ => Option.none

/-- Substitution applied to the digit text before magnitude parsing:
every `x/X/z/Z/?` digit becomes `0`. -/
def substituteUnknown (c : Char) : Char :=
  match c with
  | 'x' => '0'
  | 'X' => '0'
  | 'z' => '0'
  | 'Z' => '0'
  | '?' => '0'
  | c => c

/-- Bits contributed by one digit of the given base (`4/3/1` for
`h/o/b`, `0` otherwise — decimal literals produce empty masks). -/
def bitsPerDigit (base : Char) : Nat :=
  match base with
  | 'h' => 4
  | 'o' => 3
  | 'b' => 1
  | _ => 0

/-- Is the digit an unknown / high-impedance digit (`x/X/z/Z/?`)? -/
def isSpecialDigit (c : Char) : Bool :=
  match c with
  | 'x' => true
  | 'X' => true
  | 'z' => true
  | 'Z' => true
  | '?' => true
  | _ => false

/-- Is the digit specifically an `x` digit (`x/X`)? -/
def isXDigit (c : Char) : Bool :=
  match c with
  | 'x' => true
  | 'X' => true
  | _ => false

/-- Resolution of the literal's size: an explicit size string is parsed
(`none` result is the fatal "not a valid integer size" path); without an
explicit size the minimal width `sizeNeeded` is used. -/
def resolveSize (maybeSize : Option (List Char)) (sizeNeeded : Nat) : Option Nat :=
  match maybeSize with
  | Option.some s => parseUsize s
  | Option.none => Option.some sizeNeeded

/-- Lowering of a based integer literal
(`Lit::BasedInteger(maybe_size, signed, base, value)`).  Returns the
emitted diagnostics together with the resulting `IntConst` (or a fatal
failure). -/
def lowerBasedInteger (maybeSize : Option (List Char)) (sgn : Bool) (base : Char)
    (value : List Char) (span : Span) : List Diag × Except Unit IntConst :=
  match radixOf base with
  | Option.none => ([Diag.notValidIntegerBase base span], Except.error ())
  | Option.some radix =>
    match parseSigned radix (value.map substituteUnknown) with
    | Option.none => ([Diag.notValidIntegerLiteral span], Except.error ())
    | Option.some parsed =>
      let sizeNeeded := bitWidth parsed.natAbs
      match resolveSize maybeSize sizeNeeded with
      | Option.none => ([Diag.notValidIntegerSize span], Except.error ())
      | Option.some size =>
        let warns := if size < sizeNeeded then [Diag.tooLarge span] else []
        let bitIter := value.flatMap (fun c => List.replicate (bitsPerDigit base) c)
        (warns,
          Except.ok
            { width := size
              value := parsed
              signed := sgn
              special_bits := bitIter.map isSpecialDigit
              x_bits := bitIter.map isXDigit })

/-! ### AST fragments used by module/port lowering

These structures are the shapes of the `ast` types as used by
`lowering.rs`; fields irrelevant to every claim are represented by
opaque tokens. -/

/-- `ast::TypeSign`. -/
inductive TypeSign where
  | none
  | signed
  | unsigned
deriving DecidableEq

/-- `ast::TypeData`, collapsed to the only distinction `lowering.rs`
makes during port reconciliation: implicit vs. an explicit type. -/
inductive TypeData where
  | implicitType
  | explicitType (tok : Nat)
deriving DecidableEq

/-- `ast::TypeDim`, opaque. -/
abbrev TypeDim := Nat

/-- `ast::Type`: type data with sign and packed dimensions. -/
structure AstType where
  data : TypeData
  sign : TypeSign
  dims : List TypeDim
deriving DecidableEq

/-- `ast::PortDir`. -/
inductive PortDir where
  | input
  | output
  | inout
  | ref
deriving DecidableEq

/-- `ast::PortKind`: variable, or a net of some net type. -/
inductive PortKind where
  | var
  | net (netType : Nat)
deriving DecidableEq

/-- `ast::VarDeclName`: one declared name inside a declaration. -/
structure VarDeclName where
  name : Name
  name_span : Span
  span : Span
  dims : List TypeDim
  init : Option ExprTok
deriving DecidableEq

/-- `ast::PortDecl` (a bare port declaration in a module body). -/
structure PortDecl where
  span : Span
  dir : PortDir
  kind : Option PortKind
  ty : AstType
  names : List VarDeclName
deriving DecidableEq

/-- `ast::VarDecl`. -/
structure VarDecl where
  span : Span
  ty : AstType
  names : List VarDeclName
deriving DecidableEq

/-- `ast::NetDecl`. -/
structure NetDecl where
  span : Span
  net_type : Nat
  ty : AstType
  names : List VarDeclName
deriving DecidableEq

/-- `ast::ParamDecl::kind`: a list of type- or value-parameter
declarations (each declaration an opaque token). -/
inductive ParamKind where
  | typeParams (decls : List Nat)
  | valueParams (decls : List Nat)
deriving DecidableEq

/-- `ast::HierarchyItem`, with the variants `lower_module_block`,
`lower_package` and `lower_module_ports_nonansi` distinguish.  Variants
matched only by a wildcard arm in the source (`PortDecl` in
`lower_module_block`, `ModportDecl`, assertion items, ...) are included
so the wildcard arms are exercised. -/
inductive HierarchyItem where
  | portDecl (pd : PortDecl)
  | varDecl (vd : VarDecl)
  | netDecl (nd : NetDecl)
  | inst (target : Name) (span : Span) (names : List (Name × Span))
  | procedure (span : Span) (tok : Nat)
  | generateIf (span : Span) (tok : Nat)
  | generateFor (span : Span) (tok : Nat)
  | paramDecl (span : Span) (kind : ParamKind)
  | typedef (name : Name) (name_span : Span) (span : Span) (tok : Nat)
  | contAssign (span : Span) (assignments : List (ExprTok × ExprTok))
  | importDecl (span : Span) (imports : List Nat)
  | subroutineDecl (name : Name) (span : Span)
  | modportDecl (span : Span) (tok : Nat)
  | assertionItem (span : Span) (tok : Nat)
deriving DecidableEq

/-- `item.human_span()`: the span of a hierarchy item. -/
def itemSpan : HierarchyItem → Span
  | .portDecl pd => pd.span
  | .varDecl vd => vd.span
  | .netDecl nd => nd.span
  | .inst _ sp _ => sp
  | .procedure sp _ => sp
  | .generateIf sp _ => sp
  | .generateFor sp _ => sp
  | .paramDecl sp _ => sp
  | .typedef _ _ sp _ => sp
  | .contAssign sp _ => sp
  | .importDecl sp _ => sp
  | .subroutineDecl _ sp => sp
  | .modportDecl sp _ => sp
  | .assertionItem sp _ => sp

/-- `ast::Port`.  `named` carries the fields `lower_port` destructures
(`span, name, dir, ty, expr`) plus the kind/dims it ignores. -/
inductive Port where
  | named (span : Span) (name : Name) (name_span : Span) (dir : Option PortDir)
      (kind : Option PortKind) (ty : AstType) (dims : List TypeDim)
      (expr : Option ExprTok)
  | explicitPort (span : Span) (dir : Option PortDir) (tok : Nat)
  | implicitPort (span : Span) (tok : Nat)
deriving DecidableEq

/-- Span of an `ast::Port`. -/
def portSpan : Port → Span
  | .named sp _ _ _ _ _ _ _ => sp
  | .explicitPort sp _ _ => sp
  | .implicitPort sp _ => sp

/-! ### Association-list model of `HashMap`

`decls` in `lower_module_ports_nonansi` is a `HashMap<Name, _>`; we model
it as an association list.  `listInsert` mirrors `HashMap::insert`: it
replaces an existing entry and returns the previous value. -/

/-- `HashMap::get`. -/
def listGet {α : Type} (m : List (Nat × α)) (k : Nat) : Option α :=
  match m with
  | [] => Option.none
  | (k', v') :: rest => if k' = k then Option.some v' else listGet rest k

/-- `HashMap::insert`: returns the replaced value (if any) and the
updated map. -/
def listInsert {α : Type} (m : List (Nat × α)) (k : Nat) (v : α) :
    Option α × List (Nat × α) :=
  match m with
  | [] => (Option.none, [(k, v)])
  | (k', v') :: rest =>
    if k' = k then (Option.some v', (k, v) :: rest)
    else
      let (prev, rest') := listInsert rest k v
      (prev, (k', v') :: rest')

/-- In-place update of the entry at an existing key (`HashMap::get_mut`
followed by mutation). -/
def listSet {α : Type} (m : List (Nat × α)) (k : Nat) (v : α) : List (Nat × α) :=
  m.map (fun kv => if kv.1 = k then (k, v) else kv)

/-! ### Non-ANSI port reconciliation

Translation of `lower_module_ports_nonansi` (`lowering.rs` lines
581-812). -/

/-- `PartialNonAnsiPort` (lines 814-827). -/
structure PartialNonAnsiPort where
  span : Span
  name : Name
  dir : PortDir
  kind : Option PortKind
  ty : TypeData
  sign : TypeSign
  packed_dims : List TypeDim
  unpacked_dims : List TypeDim
  default : Option ExprTok
  var_decl : Option (VarDecl × VarDeclName)
  net_decl : Option (NetDecl × VarDeclName)
deriving DecidableEq

/-- State threaded through the three reconciliation passes:
declaration order, the name-indexed map of partial ports, the emitted
diagnostics and the `failed` flag. -/
structure GatherSt where
  decl_order : List Name
  decls : List (Name × PartialNonAnsiPort)
  diags : List Diag
  failed : Bool
deriving DecidableEq

/-- The `PartialNonAnsiPort` record built for one declared name of a
bare port declaration (first pass, lines 601-613). -/
def partialPortOf (pd : PortDecl) (n : VarDeclName) : PartialNonAnsiPort :=
  { span := n.name_span
    name := n.name
    dir := pd.dir
    kind := pd.kind
    ty := pd.ty.data
    sign := pd.ty.sign
    packed_dims := pd.ty.dims
    unpacked_dims := n.dims
    default := n.init
    var_decl := Option.none
    net_decl := Option.none }

/-- First pass, body of the inner loop (lines 600-626): insert the
record; a replaced previous record is a duplicate-name error citing both
spans, otherwise the name is appended to the declaration order. -/
def gatherStep (st : GatherSt) (pd : PortDecl) (n : VarDeclName) : GatherSt :=
  let data := partialPortOf pd n
  match listInsert st.decls n.name data with
  | (Option.some prev, decls') =>
    { st with
      decls := decls'
      diags := st.diags ++ [Diag.portDeclaredMultipleTimes n.name n.name_span prev.span]
      failed := true }
  | (Option.none, decls') =>
    { st with decls := decls', decl_order := st.decl_order ++ [n.name] }

/-- First pass (lines 592-627): collect bare port declarations. -/
def gatherPortDecls (items : List HierarchyItem) : GatherSt :=
  items.foldl
    (fun st item =>
      match item with
      | .portDecl pd => pd.names.foldl (fun st n => gatherStep st pd n) st
      | _ => st)
    { decl_order := [], decls := [], diags := [], failed := false }

/-- Second pass, variable-declaration case (lines 633-652). -/
def collectVarDecl (st : GatherSt) (vd : VarDecl) : GatherSt :=
  vd.names.foldl
    (fun st n =>
      match listGet st.decls n.name with
      | Option.none => st
      | Option.some entry =>
        let prev := entry.var_decl
        let decls' := listSet st.decls n.name { entry with var_decl := Option.some (vd, n) }
        match prev with
        | Option.some p =>
          { st with
            decls := decls'
            diags := st.diags ++
              [Diag.portVarDeclaredMultipleTimes n.name n.name_span p.2.name_span]
            failed := true }
        | Option.none => { st with decls := decls' })
    st

/-- Second pass, net-declaration case (lines 653-672). -/
def collectNetDecl (st : GatherSt) (nd : NetDecl) : GatherSt :=
  nd.names.foldl
    (fun st n =>
      match listGet st.decls n.name with
      | Option.none => st
      | Option.some entry =>
        let prev := entry.net_decl
        let decls' := listSet st.decls n.name { entry with net_decl := Option.some (nd, n) }
        match prev with
        | Option.some p =>
          { st with
            decls := decls'
            diags := st.diags ++
              [Diag.portNetDeclaredMultipleTimes n.name n.name_span p.2.name_span]
            failed := true }
        | Option.none => { st with decls := decls' })
    st

/-- Second pass (lines 631-675): collect matching variable and net
declarations. -/
def collectDecls (st : GatherSt) (items : List HierarchyItem) : GatherSt :=
  items.foldl
    (fun st item =>
      match item with
      | .varDecl vd => collectVarDecl st vd
      | .netDecl nd => collectNetDecl st nd
      | _ => st)
    st

/-- Sign merge (lines 787-799): equal signs pass through, an unspecified
sign defers to the other side, and two differing explicit signs emit one
"contradicting signs" error while leaving the port's own sign in place. -/
def mergeSign (name : Name) (portDeclSpan addSpan : Span) (a b : TypeSign) :
    TypeSign × List Diag :=
  if a = b then (a, [])
  else
    match a, b with
    | a, TypeSign.none => (a, [])
    | TypeSign.none, b => (b, [])
    | a, _ => (a, [Diag.contradictingSigns name portDeclSpan addSpan])

/-- Third pass, body for one port name (lines 679-804): completeness
check, inheritance from the variable or net fragment, and sign merge. -/
def mergeOne (st : GatherSt) (nm : Name) : GatherSt :=
  match listGet st.decls nm with
  | Option.none => st
  | Option.some port0 =>
    -- Completeness check (lines 685-710).
    let completeSpans :=
      (port0.var_decl.toList.map (fun x => x.2.span)) ++
        (port0.net_decl.toList.map (fun x => x.2.span))
    let isComplete : Bool := port0.kind.isSome || decide (port0.ty ≠ TypeData.implicitType)
    let port1 :=
      if isComplete then { port0 with var_decl := Option.none, net_decl := Option.none }
      else port0
    let diags1 :=
      if isComplete then
        completeSpans.map (fun s => Diag.portAlreadyComplete nm s port0.span)
      else []
    let failed1 := st.failed || (isComplete && !completeSpans.isEmpty)
    -- Fragment inheritance (lines 712-785).
    match port1.var_decl, port1.net_decl with
    | Option.some vd, Option.none =>
      let conflict : Bool := port1.kind.isSome && decide (port1.kind ≠ Option.some PortKind.var)
      let diags2 :=
        if conflict then [Diag.netPortRedeclaredAsVariable nm vd.2.span port1.span] else []
      let port2 := { port1 with kind := Option.some PortKind.var }
      let addSpan := vd.2.name_span
      let addSign := vd.1.ty.sign
      let (newSign, diags3) := mergeSign nm port2.span addSpan port2.sign addSign
      let port3 := { port2 with sign := newSign }
      { st with
        decls := listSet st.decls nm port3
        diags := st.diags ++ diags1 ++ diags2 ++ diags3
        failed := failed1 || conflict }
    | Option.none, Option.some nd =>
      let conflict : Bool := port1.kind.isSome && decide (port1.kind = Option.some PortKind.var)
      let diags2 :=
        if conflict then [Diag.varPortRedeclaredAsNet nm nd.2.span port1.span] else []
      let port2 := { port1 with kind := Option.some (PortKind.net nd.1.net_type) }
      let addSpan := nd.2.name_span
      let addSign := nd.1.ty.sign
      let (newSign, diags3) := mergeSign nm port2.span addSpan port2.sign addSign
      let port3 := { port2 with sign := newSign }
      { st with
        decls := listSet st.decls nm port3
        diags := st.diags ++ diags1 ++ diags2 ++ diags3
        failed := failed1 || conflict }
    | Option.some vd, Option.some nd =>
      { st with
        decls := listSet st.decls nm port1
        diags := st.diags ++ diags1 ++
          [Diag.portDoublyDeclared nm vd.2.span nd.2.span port1.span]
        failed := true }
    | Option.none, Option.none =>
      { st with
        decls := listSet st.decls nm port1
        diags := st.diags ++ diags1
        failed := failed1 }

/-- `lower_module_ports_nonansi` (lines 581-812): the three passes run in
order; the fourth step — pairing the merged data back onto the external
ports — is a `TODO` in the source, so the function returns `Ok(())` and
the merge result is discarded. -/
def lower_module_ports_nonansi (ast_ports : List Port)
    (ast_items : List HierarchyItem) (first_span : Span) :
    List Diag × Except Unit Unit :=
  let st1 := gatherPortDecls ast_items
  let st2 := collectDecls st1 ast_items
  let st3 := st2.decl_order.foldl mergeOne st2
  (st3.diags, Except.ok ())

/-! ### Port node lowering

Translation of `lower_port` (`lowering.rs` lines 924-951). -/

/-- The `hir::Port` node.  The node ids of the lowered type and default
expression are represented by the syntax nodes they are allocated for. -/
structure HirPort where
  id : NodeId
  name : Name
  name_span : Span
  span : Span
  dir : PortDir
  ty : AstType
  default : Option ExprTok
deriving DecidableEq

/-- `lower_port`: a named port is lowered to a `hir::Port` carrying the
direction, type and default expression written on the port entry itself;
a missing direction panics via `dir.expect("port missing direction")`;
any other port shape is the fatal `cx.unimp` path. -/
def lower_port (node_id : NodeId) (ast : Port) : List Diag × Outcome HirPort :=
  match ast with
  | .named span name name_span dir _kind ty _dims expr =>
    match dir with
    | Option.some d =>
      ([], Outcome.ok
        { id := node_id
          name := name
          name_span := name_span
          span := span
          dir := d
          ty := ty
          default := expr })
    | Option.none => ([], Outcome.panicked "port missing direction")
  | other => ([Diag.unimplemented (portSpan other)], Outcome.err)

/-! ### Module body lowering

Translation of `lower_module_block` (`lowering.rs` lines 839-922) and
the allocation helpers it uses (lines 1582-1642).  Node-id allocation is
modelled by an explicit counter. -/

/-- `cx.map_ast_with_parent`: allocate a fresh node id.  The node↔id
association and the recorded parent rib are not needed by the claims and
are not modelled. -/
def map_ast_with_parent (parent : NodeId) (st : Nat) : NodeId × Nat :=
  (st, st + 1)

/-- `alloc_param_decl` (lines 1583-1608): allocate ids for the type- or
value-parameter declarations, threading the rib. -/
def alloc_param_decl (kind : ParamKind) (next_rib : NodeId) (into : List NodeId)
    (st : Nat) : NodeId × List NodeId × Nat :=
  match kind with
  | .typeParams decls =>
    decls.foldl
      (fun acc _decl =>
        let (id, st') := map_ast_with_parent acc.1 acc.2.2
        (id, acc.2.1 ++ [id], st'))
      (next_rib, into, st)
  | .valueParams decls =>
    decls.foldl
      (fun acc _decl =>
        let (id, st') := map_ast_with_parent acc.1 acc.2.2
        (id, acc.2.1 ++ [id], st'))
      (next_rib, into, st)

/-- `alloc_var_decl` (lines 1611-1625): allocate the type id, then one id
per declared name, threading the rib. -/
def alloc_var_decl (decl : VarDecl) (next_rib : NodeId) (into : List NodeId)
    (st : Nat) : NodeId × List NodeId × Nat :=
  let (type_id, st') := map_ast_with_parent next_rib st
  decl.names.foldl
    (fun acc _n =>
      let (decl_id, st'') := map_ast_with_parent acc.1 acc.2.2
      (decl_id, acc.2.1 ++ [decl_id], st''))
    (type_id, into, st')

/-- `alloc_net_decl` (lines 1628-1642). -/
def alloc_net_decl (decl : NetDecl) (next_rib : NodeId) (into : List NodeId)
    (st : Nat) : NodeId × List NodeId × Nat :=
  let (type_id, st') := map_ast_with_parent next_rib st
  decl.names.foldl
    (fun acc _n =>
      let (decl_id, st'') := map_ast_with_parent acc.1 acc.2.2
      (decl_id, acc.2.1 ++ [decl_id], st''))
    (type_id, into, st')

/-- `hir::ModuleBlock`: the six ordered collections. -/
structure ModuleBlock where
  insts : List NodeId
  decls : List NodeId
  procs : List NodeId
  gens : List NodeId
  params : List NodeId
  assigns : List NodeId
deriving DecidableEq

/-- Accumulator of the `lower_module_block` item loop: the rib cursor,
the six collections, the id counter and the log. -/
structure BlockAcc where
  next_rib : NodeId
  insts : List NodeId
  decls : List NodeId
  procs : List NodeId
  gens : List NodeId
  params : List NodeId
  assigns : List NodeId
  st : Nat
  logs : List Log
deriving DecidableEq

/-- Body of the `lower_module_block` item loop (lines 851-912).  The
wildcard arm skips the item with a `warn!` log entry. -/
def lower_module_block_step (acc : BlockAcc) (item : HierarchyItem) : BlockAcc :=
  match item with
  | .inst _target _sp names =>
    let (target_id, st') := map_ast_with_parent acc.next_rib acc.st
    names.foldl
      (fun acc' _n =>
        let (inst_id, st'') := map_ast_with_parent acc'.next_rib acc'.st
        { acc' with next_rib := inst_id, insts := acc'.insts ++ [inst_id], st := st'' })
      { acc with next_rib := target_id, st := st' }
  | .varDecl decl =>
    let (rib, decls', st') := alloc_var_decl decl acc.next_rib acc.decls acc.st
    { acc with next_rib := rib, decls := decls', st := st' }
  | .netDecl decl =>
    let (rib, decls', st') := alloc_net_decl decl acc.next_rib acc.decls acc.st
    { acc with next_rib := rib, decls := decls', st := st' }
  | .procedure _ _ =>
    let (id, st') := map_ast_with_parent acc.next_rib acc.st
    { acc with next_rib := id, procs := acc.procs ++ [id], st := st' }
  | .generateIf _ _ =>
    let (id, st') := map_ast_with_parent acc.next_rib acc.st
    { acc with next_rib := id, gens := acc.gens ++ [id], st := st' }
  | .generateFor _ _ =>
    let (id, st') := map_ast_with_parent acc.next_rib acc.st
    { acc with next_rib := id, gens := acc.gens ++ [id], st := st' }
  | .paramDecl _ kind =>
    let (rib, params', st') := alloc_param_decl kind acc.next_rib acc.params acc.st
    { acc with next_rib := rib, params := params', st := st' }
  | .typedef _ _ _ _ =>
    let (id, st') := map_ast_with_parent acc.next_rib acc.st
    { acc with next_rib := id, st := st' }
  | .contAssign _ assignments =>
    assignments.foldl
      (fun acc' _a =>
        let (id, st'') := map_ast_with_parent acc'.next_rib acc'.st
        { acc' with next_rib := id, assigns := acc'.assigns ++ [id], st := st'' })
      acc
  | .importDecl _ imports =>
    imports.foldl
      (fun acc' _i =>
        let (id, st'') := map_ast_with_parent acc'.next_rib acc'.st
        { acc' with next_rib := id, st := st'' })
      acc
  | _ => { acc with logs := acc.logs ++ [Log.skipUnsupportedItem] }

/-- `lower_module_block` (lines 839-922): fold the step over the items
and assemble the block.  The function never fails. -/
def lower_module_block (parent_rib : NodeId) (items : List HierarchyItem)
    (st : Nat) : Except Unit ModuleBlock × Nat × List Log :=
  let acc := items.foldl lower_module_block_step
    { next_rib := parent_rib, insts := [], decls := [], procs := [], gens := []
      params := [], assigns := [], st := st, logs := [] }
  (Except.ok
    { insts := acc.insts, decls := acc.decls, procs := acc.procs
      gens := acc.gens, params := acc.params, assigns := acc.assigns },
    acc.st, acc.logs)

/-! ### Package lowering

Translation of `lower_package` (`lowering.rs` lines 1666-1710). -/

/-- `hir::Package`. -/
structure HirPackage where
  id : NodeId
  name : Name
  name_span : Span
  span : Span
  names : List (Name × Span × NodeId)
  decls : List NodeId
  params : List NodeId
  last_rib : NodeId
deriving DecidableEq

/-- The `lower_package` item loop (lines 1675-1698): variable,
parameter and typedef declarations are handled, subroutines are skipped
with a `warn!` log entry, and every other item kind is a fatal
"cannot appear in a package" error. -/
def lower_package_items (next_rib : NodeId)
    (names : List (Name × Span × NodeId)) (decls params : List NodeId)
    (st : Nat) (logs : List Log) :
    List HierarchyItem →
      List Diag × List Log ×
        Except Unit (List (Name × Span × NodeId) × List NodeId × List NodeId × NodeId) × Nat
  | [] => ([], logs, Except.ok (names, decls, params, next_rib), st)
  | item :: rest =>
    match item with
    | .varDecl decl =>
      let (rib, decls', st') := alloc_var_decl decl next_rib decls st
      lower_package_items rib names decls' params st' logs rest
    | .paramDecl _ kind =>
      let (rib, params', st') := alloc_param_decl kind next_rib params st
      lower_package_items rib names decls params' st' logs rest
    | .typedef nm nsp _ _ =>
      let (id, st') := map_ast_with_parent next_rib st
      lower_package_items id (names ++ [(nm, nsp, id)]) decls params st' logs rest
    | .subroutineDecl nm _ =>
      lower_package_items next_rib names decls params st
        (logs ++ [Log.ignoreUnsupportedSubroutine nm]) rest
    | other =>
      ([Diag.cannotAppearInPackage (itemSpan other)], logs, Except.error (), st)

/-- `lower_package` (lines 1666-1710). -/
def lower_package (node_id : NodeId) (name : Name) (name_span span : Span)
    (items : List HierarchyItem) (st : Nat) :
    List Diag × List Log × Except Unit HirPackage × Nat :=
  match lower_package_items node_id [] [] [] st [] items with
  | (diags, logs, Except.error e, st') => (diags, logs, Except.error e, st')
  | (diags, logs, Except.ok (names, decls, params, last_rib), st') =>
    (diags, logs,
      Except.ok
        { id := node_id, name := name, name_span := name_span, span := span
          names := names, decls := decls, params := params, last_rib := last_rib },
      st')

/-- Classifier for the wildcard (`skip with warning`) arm of
`lower_module_block`: item kinds with no handling rule there. -/
def moduleBlockUnhandled : HierarchyItem → Bool
  | .portDecl _ => true
  | .subroutineDecl _ _ => true
  | .modportDecl _ _ => true
  | .assertionItem _ _ => true
  | _ => false

/-- Classifier for the wildcard (fatal) arm of `lower_package`: item
kinds with no handling rule there. -/
def packageUnhandled : HierarchyItem → Bool
  | .varDecl _ => false
  | .paramDecl _ _ => false
  | .typedef _ _ _ _ => false
  | .subroutineDecl _ _ => false
  | _ => true

/-! ### Event expression flattening

Translation of `lower_event_expr` (`lowering.rs` lines 1516-1551).
Node ids of the mapped trigger/condition expressions are represented by
the expression tokens themselves. -/

/-- `ast::EdgeIdent`. -/
inductive EdgeIdent where
  | implicit
  | edge
  | posedge
  | negedge
deriving DecidableEq

/-- `ast::EventExpr`: a tree of edge leaves combined by `or` and guarded
by `iff`. -/
inductive EventExpr where
  | edge (span : Span) (kind : EdgeIdent) (value : ExprTok)
  | iff (span : Span) (expr : EventExpr) (cond : ExprTok)
  | or (span : Span) (lhs rhs : EventExpr)
deriving DecidableEq

/-- `hir::Event`: one discrete event with its edge kind, trigger
expression and stack of `iff` conditions. -/
structure Event where
  span : Span
  edge : EdgeIdent
  expr : ExprTok
  iff : List ExprTok
deriving DecidableEq

/-- `lower_event_expr`: an edge leaf appends one event carrying a clone
of the current condition stack; an `iff` node pushes its condition,
recurses and pops; an `or` node recurses left then right.  Returns the
extended event list and the final condition stack. -/
def lower_event_expr (e : EventExpr) (parent_id : NodeId) (into : List Event)
    (cond_stack : List ExprTok) : List Event × List ExprTok :=
  match e with
  | .edge span kind value =>
    (into ++ [{ span := span, edge := kind, expr := value, iff := cond_stack }],
      cond_stack)
  | .iff _ expr cond =>
    let (into', stack') := lower_event_expr expr parent_id into (cond_stack ++ [cond])
    (into', stack'.dropLast)
  | .or _ lhs rhs =>
    let (into', stack') := lower_event_expr lhs parent_id into cond_stack
    lower_event_expr rhs parent_id into' stack'

/-- Specification-side description of event flattening: the edge leaves
of the tree in left-to-right order, each paired with the `iff`
conditions on the path from the root to that leaf. -/
def eventLeaves : EventExpr → List ExprTok → List Event
  | .edge span kind value, conds =>
    [{ span := span, edge := kind, expr := value, iff := conds }]
  | .iff _ expr cond, conds => eventLeaves expr (conds ++ [cond])
  | .or _ lhs rhs, conds => eventLeaves lhs conds ++ eventLeaves rhs conds

/-! ### Pattern expressions

Translation of the `ast::PatternExpr` branches of `lower_expr`
(`lowering.rs` lines 1340-1431). -/

/-- `ast::PatternFieldData`. -/
inductive PatternFieldData where
  | exprField (e : ExprTok)
  | repeatField (count : ExprTok) (exprs : List ExprTok)
  | typeField (ty : Nat) (e : ExprTok)
  | memberField (member : ExprTok) (e : ExprTok)
  | defaultField (e : ExprTok)
deriving DecidableEq

/-- `ast::PatternField`: field data with its span. -/
structure PatternField where
  span : Span
  data : PatternFieldData
deriving DecidableEq

/-- `hir::PatternMapping`. -/
inductive PatternMapping where
  | typeM (ty : Nat)
  | memberM (member : ExprTok)
  | defaultM
deriving DecidableEq

/-- The `hir::ExprKind` variants produced by the literal / pattern /
time-literal branches modelled in this file. -/
inductive ExprKind where
  | intConst (c : IntConst)
  | timeConst (q : ℚ)
  | emptyPattern
  | positionalPattern (exprs : List ExprTok)
  | repeatPattern (count : ExprTok) (exprs : List ExprTok)
  | namedPattern (mapping : List (PatternMapping × ExprTok))
deriving DecidableEq

/-- Loop body of the positional-pattern branch (lines 1344-1368): a
positional field is kept; any other field is an "inconsistent field"
error citing it and the deciding first field, and is dropped. -/
def patternPosStep (decidingSpan : Span) (acc : List Diag × List ExprTok)
    (field : PatternField) : List Diag × List ExprTok :=
  match field.data with
  | .exprField e => (acc.1, acc.2 ++ [e])
  | _ => (acc.1 ++ [Diag.notPositionalPattern field.span decidingSpan], acc.2)

/-- Loop body of the named-pattern branch (lines 1389-1428). -/
def patternNamedStep (decidingSpan : Span)
    (acc : List Diag × List (PatternMapping × ExprTok)) (field : PatternField) :
    List Diag × List (PatternMapping × ExprTok) :=
  match field.data with
  | .typeField ty e => (acc.1, acc.2 ++ [(PatternMapping.typeM ty, e)])
  | .memberField m e => (acc.1, acc.2 ++ [(PatternMapping.memberM m, e)])
  | .defaultField e => (acc.1, acc.2 ++ [(PatternMapping.defaultM, e)])
  | _ => (acc.1 ++ [Diag.notNamedPattern field.span decidingSpan], acc.2)

/-- Lowering of a pattern expression (lines 1340-1431): the empty
pattern is the distinct empty marker; otherwise the first field decides
the interpretation of the whole pattern. -/
def lower_pattern_expr (span : Span) (fields : List PatternField) :
    List Diag × ExprKind :=
  match fields with
  | [] => ([], ExprKind.emptyPattern)
  | first :: rest =>
    let decidingSpan := first.span
    match first.data with
    | .exprField _ =>
      let (diags, mapping) :=
        (first :: rest).foldl (patternPosStep decidingSpan) ([], [])
      (diags, ExprKind.positionalPattern mapping)
    | .repeatField count exprs =>
      (rest.map (fun field => Diag.fieldAfterRepeatPattern field.span),
        ExprKind.repeatPattern count exprs)
    | _ =>
      let (diags, mapping) :=
        (first :: rest).foldl (patternNamedStep decidingSpan) ([], [])
      (diags, ExprKind.namedPattern mapping)

/-- Specification-side: the conforming fields kept by a positional
pattern, in order. -/
def patternPosKept (fields : List PatternField) : List ExprTok :=
  fields.filterMap
    (fun f =>
      match f.data with
      | .exprField e => Option.some e
      | _ => Option.none)

/-- Specification-side: the "inconsistent field" diagnostics of a
positional pattern, in field order. -/
def patternPosDiags (decidingSpan : Span) (fields : List PatternField) : List Diag :=
  fields.filterMap
    (fun f =>
      match f.data with
      | .exprField _ => Option.none
      | _ => Option.some (Diag.notPositionalPattern f.span decidingSpan))

/-- Specification-side: the conforming entries kept by a named pattern. -/
def patternNamedKept (fields : List PatternField) : List (PatternMapping × ExprTok) :=
  fields.filterMap
    (fun f =>
      match f.data with
      | .typeField ty e => Option.some (PatternMapping.typeM ty, e)
      | .memberField m e => Option.some (PatternMapping.memberM m, e)
      | .defaultField e => Option.some (PatternMapping.defaultM, e)
      | _ => Option.none)

/-- Specification-side: the "inconsistent field" diagnostics of a named
pattern. -/
def patternNamedDiags (decidingSpan : Span) (fields : List PatternField) : List Diag :=
  fields.filterMap
    (fun f =>
      match f.data with
      | .exprField _ => Option.some (Diag.notNamedPattern f.span decidingSpan)
      | .repeatField _ _ => Option.some (Diag.notNamedPattern f.span decidingSpan)
      | _ => Option.none)

/-- Does the field data start a named/typed/default pattern? -/
def isNamedPatternField : PatternFieldData → Bool
  | .typeField _ _ => true
  | .memberField _ _ => true
  | .defaultField _ => true
  | _ => false

/-! ### Time literals

Translation of `parse_fixed_point_number` (`lowering.rs` lines
1486-1514) and the `Lit::Time` branch of `lower_expr` (lines
1163-1178). -/

/-- `syntax::token::TimeUnit`. -/
inductive TimeUnit where
  | second
  | milliSecond
  | microSecond
  | nanoSecond
  | picoSecond
  | femtoSecond
deriving DecidableEq

/-- The number of factor-1000 steps from seconds down to the unit
(lines 1166-1173). -/
def timeUnitMagnitude : TimeUnit → Nat
  | .second => 0
  | .milliSecond => 1
  | .microSecond => 2
  | .nanoSecond => 3
  | .picoSecond => 4
  | .femtoSecond => 5

/-- `parse_fixed_point_number`: the integer and optional fractional
digit strings are concatenated into the numerator; the denominator is
`1` followed by one `0` per fractional digit.  Both are parsed as
`BigInt` and combined into an exact rational; any parse failure is the
fatal "not a number literal" error. -/
def parse_fixed_point_number (span : Span) (int : List Char)
    (frac : Option (List Char)) : List Diag × Except Unit ℚ :=
  let num_digits := int ++ (frac.getD [])
  let denom_digits := '1' :: (frac.getD []).map (fun _ => '0')
  match parseSigned 10 num_digits, parseSigned 10 denom_digits with
  | Option.some a, Option.some b => ([], Except.ok ((a : ℚ) / (b : ℚ)))
  | Option.none, _ => ([Diag.notNumberLiteral span], Except.error ())
  | _, Option.none => ([Diag.notNumberLiteral span], Except.error ())

/-- The `Lit::Time` branch of `lower_expr`: the fixed-point value is
divided by `BigInt::from(1000)` once per unit step, in exact rational
arithmetic. -/
def lower_time_literal (span : Span) (int : List Char)
    (frac : Option (List Char)) (unit : TimeUnit) : List Diag × Except Unit ExprKind :=
  match parse_fixed_point_number span int frac with
  | (diags, Except.error e) => (diags, Except.error e)
  | (diags, Except.ok value) =>
    let magnitude := timeUnitMagnitude unit
    (diags,
      Except.ok (ExprKind.timeConst
        ((List.range magnitude).foldl (fun v _ => v / (1000 : ℚ)) value)))

/-- Specification-side: the decimal value of a concatenated digit
string. -/
def decimalValue (s : List Char) : Nat :=
  s.foldl (fun a c => a * 10 + (c.toNat - '0'.toNat)) 0

/-- Is the character a decimal digit? -/
def isDigit10 (c : Char) : Bool :=
  match charDigitVal c with
  | Option.some d => decide (d < 10)
  | Option.none => false

/-! ### A concrete non-ANSI duplicate-port scenario

Module body `input ty7 a; output a; var ty8 unsigned a;` (names interned
as `0`), used to observe which record survives a duplicate bare port
declaration. -/

/-- First bare port declaration of the scenario: complete (explicit
type), unspecified sign, name span 10. -/
def dupScenarioFirst : PortDecl :=
  { span := 9
    dir := PortDir.input
    kind := Option.none
    ty := ⟨TypeData.explicitType 7, TypeSign.none, []⟩
    names := [{ name := 0, name_span := 10, span := 11, dims := [], init := Option.none }] }

/-- Second bare port declaration of the scenario, for the same name:
implicit type, signed, name span 20. -/
def dupScenarioSecond : PortDecl :=
  { span := 19
    dir := PortDir.output
    kind := Option.none
    ty := ⟨TypeData.implicitType, TypeSign.signed, []⟩
    names := [{ name := 0, name_span := 20, span := 21, dims := [], init := Option.none }] }

/-- A variable declaration for the same name with an unsigned type. -/
def dupScenarioVar : VarDecl :=
  { span := 29
    ty := ⟨TypeData.explicitType 8, TypeSign.unsigned, []⟩
    names := [{ name := 0, name_span := 30, span := 31, dims := [], init := Option.none }] }

/-- The module body items of the duplicate-port scenario. -/
def dupScenarioItems : List HierarchyItem :=
  [HierarchyItem.portDecl dupScenarioFirst,
   HierarchyItem.portDecl dupScenarioSecond,
   HierarchyItem.varDecl dupScenarioVar]

/-! ### Helper lemmas -/

/-- `HashMap::insert` returns exactly the value previously stored at the
key. -/
theorem listInsert_fst {α : Type} (m : List (Nat × α)) (k : Nat) (v : α) :
    (listInsert m k v).1 = listGet m k := by
  induction m with
  | nil => rfl
  | cons kv rest ih =>
    unfold listInsert listGet
    by_cases h : kv.1 = k
    · obtain ⟨k', v'⟩ := kv
      simp only at h
      simp [h]
    · obtain ⟨k', v'⟩ := kv
      simp only at h
      simp [h, ih]

/-- After `HashMap::insert`, looking the key up yields the new value. -/
theorem listGet_listInsert_self {α : Type} (m : List (Nat × α)) (k : Nat) (v : α) :
    listGet (listInsert m k v).2 k = Option.some v := by
  induction m with
  | nil => simp [listInsert, listGet]
  | cons kv rest ih =>
    unfold listInsert
    by_cases h : kv.1 = k
    · obtain ⟨k', v'⟩ := kv
      simp only at h
      simp [h, listGet]
    · obtain ⟨k', v'⟩ := kv
      simp only at h
      simp only [h, if_false, listGet]
      simp [h, ih]

/-- Length of a flat map of `k`-fold replications. -/
theorem flatMap_replicate_length {α : Type} (l : List α) (k : Nat) :
    (l.flatMap (fun a => List.replicate k a)).length = l.length * k := by
  induction l with
  | nil => simp
  | cons a t ih => simp [List.flatMap_cons, ih, Nat.succ_mul, Nat.add_comm]

/-- Indexing into a flat map of `k`-fold replications divides the index
by `k`. -/
theorem flatMap_replicate_getElem {α : Type} (l : List α) (k : Nat) (hk : 0 < k)
    (i : Nat) :
    (l.flatMap (fun a => List.replicate k a))[i]? = l[i / k]? := by
  induction l generalizing i with
  | nil => simp
  | cons a t ih =>
    rw [List.flatMap_cons, List.getElem?_append]
    by_cases h : i < k
    · simp [List.length_replicate, h, List.getElem?_replicate,
        Nat.div_eq_of_lt h]
    · push_neg at h
      have hdiv : i / k = (i - k) / k + 1 := Nat.div_eq_sub_div hk h
      rw [List.length_replicate, if_neg (by omega : ¬ i < k), hdiv,
        List.getElem?_cons_succ]
      exact ih (i - k)

/-- Every `x` digit is also a special digit. -/
theorem isXDigit_isSpecialDigit (c : Char) (h : isXDigit c = true) :
    isSpecialDigit c = true := by
  unfold isXDigit at h
  unfold isSpecialDigit
  split at h
  · rfl
  · rfl
  · exact absurd h (by simp)

/-- The positional-pattern loop is the filter of conforming fields plus
the diagnostics of the dropped fields. -/
theorem foldl_patternPosStep (ds : Span) (l : List PatternField)
    (accD : List Diag) (accM : List ExprTok) :
    l.foldl (patternPosStep ds) (accD, accM) =
      (accD ++ patternPosDiags ds l, accM ++ patternPosKept l) := by
  induction l generalizing accD accM with
  | nil => simp [patternPosDiags, patternPosKept]
  | cons f t ih =>
    cases hf : f.data with
    | exprField e =>
      have hstep : patternPosStep ds (accD, accM) f = (accD, accM ++ [e]) := by
        simp [patternPosStep, hf]
      rw [List.foldl_cons, hstep, ih]
      simp [patternPosDiags, patternPosKept, List.filterMap_cons, hf]
    | repeatField c es =>
      have hstep : patternPosStep ds (accD, accM) f =
          (accD ++ [Diag.notPositionalPattern f.span ds], accM) := by
        simp [patternPosStep, hf]
      rw [List.foldl_cons, hstep, ih]
      simp [patternPosDiags, patternPosKept, List.filterMap_cons, hf]
    | typeField ty e =>
      have hstep : patternPosStep ds (accD, accM) f =
          (accD ++ [Diag.notPositionalPattern f.span ds], accM) := by
        simp [patternPosStep, hf]
      rw [List.foldl_cons, hstep, ih]
      simp [patternPosDiags, patternPosKept, List.filterMap_cons, hf]
    | memberField m e =>
      have hstep : patternPosStep ds (accD, accM) f =
          (accD ++ [Diag.notPositionalPattern f.span ds], accM) := by
        simp [patternPosStep, hf]
      rw [List.foldl_cons, hstep, ih]
      simp [patternPosDiags, patternPosKept, List.filterMap_cons, hf]
    | defaultField e =>
      have hstep : patternPosStep ds (accD, accM) f =
          (accD ++ [Diag.notPositionalPattern f.span ds], accM) := by
        simp [patternPosStep, hf]
      rw [List.foldl_cons, hstep, ih]
      simp [patternPosDiags, patternPosKept, List.filterMap_cons, hf]

/-- The named-pattern loop is the filter of conforming fields plus the
diagnostics of the dropped fields. -/
theorem foldl_patternNamedStep (ds : Span) (l : List PatternField)
    (accD : List Diag) (accM : List (PatternMapping × ExprTok)) :
    l.foldl (patternNamedStep ds) (accD, accM) =
      (accD ++ patternNamedDiags ds l, accM ++ patternNamedKept l) := by
  induction l generalizing accD accM with
  | nil => simp [patternNamedDiags, patternNamedKept]
  | cons f t ih =>
    cases hf : f.data with
    | exprField e =>
      have hstep : patternNamedStep ds (accD, accM) f =
          (accD ++ [Diag.notNamedPattern f.span ds], accM) := by
        simp [patternNamedStep, hf]
      rw [List.foldl_cons, hstep, ih]
      simp [patternNamedDiags, patternNamedKept, List.filterMap_cons, hf]
    | repeatField c es =>
      have hstep : patternNamedStep ds (accD, accM) f =
          (accD ++ [Diag.notNamedPattern f.span ds], accM) := by
        simp [patternNamedStep, hf]
      rw [List.foldl_cons, hstep, ih]
      simp [patternNamedDiags, patternNamedKept, List.filterMap_cons, hf]
    | typeField ty e =>
      have hstep : patternNamedStep ds (accD, accM) f =
          (accD, accM ++ [(PatternMapping.typeM ty, e)]) := by
        simp [patternNamedStep, hf]
      rw [List.foldl_cons, hstep, ih]
      simp [patternNamedDiags, patternNamedKept, List.filterMap_cons, hf]
    | memberField m e =>
      have hstep : patternNamedStep ds (accD, accM) f =
          (accD, accM ++ [(PatternMapping.memberM m, e)]) := by
        simp [patternNamedStep, hf]
      rw [List.foldl_cons, hstep, ih]
      simp [patternNamedDiags, patternNamedKept, List.filterMap_cons, hf]
    | defaultField e =>
      have hstep : patternNamedStep ds (accD, accM) f =
          (accD, accM ++ [(PatternMapping.defaultM, e)]) := by
        simp [patternNamedStep, hf]
      rw [List.foldl_cons, hstep, ih]
      simp [patternNamedDiags, patternNamedKept, List.filterMap_cons, hf]

/-- A character is a decimal digit exactly when its digit value is the
distance from `'0'` and below ten. -/
theorem charDigitVal_of_isDigit10 (c : Char) (h : isDigit10 c = true) :
    charDigitVal c = Option.some (c.toNat - '0'.toNat) ∧ c.toNat - '0'.toNat < 10 := by
  unfold isDigit10 at h
  cases hv : charDigitVal c with
  | none => rw [hv] at h; exact absurd h (by simp)
  | some d =>
    rw [hv] at h
    have hd : d < 10 := of_decide_eq_true h
    unfold charDigitVal at hv
    split at hv
    · cases hv
      exact ⟨rfl, hd⟩
    · split at hv
      · cases hv
        omega
      · split at hv
        · cases hv
          omega
        · cases hv

/-- On an all-digit string the parsing fold succeeds and computes the
decimal value, from any accumulator. -/
theorem parseRadix_ten_fold (s : List Char) (h : ∀ c ∈ s, isDigit10 c = true)
    (a : Nat) :
    (s.foldlM
      (fun acc c =>
        match charDigitVal c with
        | Option.some d =>
            if d < 10 then Option.some (acc * 10 + d) else Option.none
        | Option.none => Option.none)
      a) =
      Option.some (s.foldl (fun x c => x * 10 + (c.toNat - '0'.toNat)) a) := by
  induction s generalizing a with
  | nil => rfl
  | cons c t ih =>
    obtain ⟨hv, hlt⟩ := charDigitVal_of_isDigit10 c (h c (by simp))
    rw [List.foldlM_cons, hv]
    simp only [if_pos hlt]
    show (t.foldlM _ (a * 10 + (c.toNat - '0'.toNat))) = _
    rw [ih (fun x hx => h x (List.mem_cons_of_mem _ hx))]
    rfl

/-- `parseRadix 10` on a non-empty all-digit string is its decimal
value. -/
theorem parseRadix_ten (s : List Char) (hne : s ≠ [])
    (h : ∀ c ∈ s, isDigit10 c = true) :
    parseRadix 10 s = Option.some (decimalValue s) := by
  unfold parseRadix
  rw [if_neg (by simpa using hne)]
  exact parseRadix_ten_fold s h 0

/-- A decimal digit is neither a sign character. -/
theorem isDigit10_ne_sign (c : Char) (h : isDigit10 c = true) :
    c ≠ '-' ∧ c ≠ '+' := by
  constructor
  · rintro rfl
    exact absurd h (by decide)
  · rintro rfl
    exact absurd h (by decide)

/-- `str::parse::<BigInt>` on a non-empty all-digit string is its
decimal value. -/
theorem parseSigned_ten_digits (s : List Char) (hne : s ≠ [])
    (h : ∀ c ∈ s, isDigit10 c = true) :
    parseSigned 10 s = Option.some ((decimalValue s : Nat) : Int) := by
  obtain ⟨c, t, rfl⟩ := List.exists_cons_of_ne_nil hne
  obtain ⟨hm, hp⟩ := isDigit10_ne_sign c (h c (by simp))
  unfold parseSigned
  split
  · rename_i rest heq
    cases heq
    exact absurd rfl hm
  · rename_i rest heq
    cases heq
    exact absurd rfl hp
  · rw [parseRadix_ten _ (by simp) h]
    rfl

/-- The digit-string fold over trailing zeros multiplies by powers of
ten. -/
theorem decimalValue_fold_zeros (k : Nat) (a : Nat) :
    (List.replicate k '0').foldl (fun x c => x * 10 + (c.toNat - '0'.toNat)) a =
      a * 10 ^ k := by
  induction k generalizing a with
  | zero => simp
  | succ k ih =>
    rw [List.replicate_succ, List.foldl_cons, ih]
    have : ('0'.toNat - '0'.toNat) = 0 := by decide
    rw [this, pow_succ]
    ring

/-- The denominator string `1` followed by `k` zeros parses to `10^k`. -/
theorem parseSigned_denom (k : Nat) :
    parseSigned 10 ('1' :: List.replicate k '0') =
      Option.some ((10 : Int) ^ k) := by
  rw [parseSigned_ten_digits _ (by simp)
    (by
      intro c hc
      rcases List.mem_cons.1 hc with rfl | hc'
      · decide
      · rw [List.eq_of_mem_replicate hc']
        decide)]
  have hval : decimalValue ('1' :: List.replicate k '0') = 10 ^ k := by
    unfold decimalValue
    rw [List.foldl_cons, decimalValue_fold_zeros]
    have h1 : '1'.toNat - '0'.toNat = 1 := by decide
    rw [h1]
    ring
  rw [hval]
  push_cast
  rfl

/-- Repeated exact division by 1000 divides by the corresponding
power. -/
theorem foldl_div_thousand (n : Nat) (q : ℚ) :
    (List.range n).foldl (fun v _ => v / (1000 : ℚ)) q = q / 1000 ^ n := by
  induction n generalizing q with
  | zero => simp
  | succ n ih =>
    rw [List.range_succ, List.foldl_append, ih, List.foldl_cons, List.foldl_nil,
      div_div, pow_succ]

/-! ### Claim theorems -/

/-- C1 (counterexample): `2'hf` emits the "too large" warning but the
stored value is the parsed magnitude 15 itself, not 15 truncated to 2
bits; and `8'h3` emits no warning yet its stored width is the stated 8,
not the minimal width of 3. -/
theorem based_literal_truncation_counterexample :
    lowerBasedInteger (Option.some ['2']) false 'h' ['f'] 0 =
      ([Diag.tooLarge 0],
        Except.ok
          { width := 2, value := 15, signed := false
            special_bits := [false, false, false, false]
            x_bits := [false, false, false, false] }) ∧
    (15 : Int) ≠ (15 : Int) % 2 ^ 2 ∧
    lowerBasedInteger (Option.some ['8']) false 'h' ['3'] 0 =
      ([], Except.ok
          { width := 8, value := 3, signed := false
            special_bits := [false, false, false, false]
            x_bits := [false, false, false, false] }) ∧
    (8 : Nat) ≠ bitWidth 3 :=
  ⟨rfl, by decide, rfl, by decide⟩

/-- C1 (amended): for every based literal that lowers successfully, the
stored value is the parsed magnitude unchanged (never truncated); the
stored width is the requested size when one is given and the minimal
width otherwise; and the non-fatal "too large" warning is emitted
exactly when the minimal width exceeds the resolved size. -/
theorem based_literal_value_width (ms : Option (List Char)) (sg : Bool)
    (base : Char) (v : List Char) (sp : Span) (ds : List Diag) (c : IntConst)
    (h : lowerBasedInteger ms sg base v sp = (ds, Except.ok c)) :
    ∃ radix parsed, radixOf base = Option.some radix ∧
      parseSigned radix (v.map substituteUnknown) = Option.some parsed ∧
      c.value = parsed ∧
      resolveSize ms (bitWidth parsed.natAbs) = Option.some c.width ∧
      ds = (if c.width < bitWidth parsed.natAbs then [Diag.tooLarge sp] else []) ∧
      (Diag.tooLarge sp).severity = Severity.warning ∧
      c.signed = sg := by
  unfold lowerBasedInteger at h
  split at h
  · simp at h
  · rename_i radix hr
    split at h
    · simp at h
    · rename_i parsed hp
      simp only [] at h
      split at h
      · simp at h
      · rename_i size hs
        have h1 := congrArg Prod.fst h
        have h2 := congrArg Prod.snd h
        simp only at h1 h2
        injection h2 with h2'
        subst h2'
        exact ⟨radix, parsed, hr, hp, rfl, hs, h1.symm, rfl, rfl⟩

/-- C1 (witness): the amended theorem applied to `2'hf`. -/
theorem based_literal_value_width_witness :
    ∃ radix parsed, radixOf 'h' = Option.some radix ∧
      parseSigned radix ((['f'] : List Char).map substituteUnknown) = Option.some parsed ∧
      ({ width := 2, value := 15, signed := false, special_bits := [false, false, false, false], x_bits := [false, false, false, false] : IntConst }).value = parsed ∧
      resolveSize (Option.some ['2']) (bitWidth parsed.natAbs) =
        Option.some ({ width := 2, value := 15, signed := false, special_bits := [false, false, false, false], x_bits := [false, false, false, false] : IntConst }).width ∧
      [Diag.tooLarge 0] =
        (if ({ width := 2, value := 15, signed := false, special_bits := [false, false, false, false], x_bits := [false, false, false, false] : IntConst }).width <
            bitWidth parsed.natAbs then [Diag.tooLarge 0] else []) ∧
      (Diag.tooLarge 0).severity = Severity.warning ∧
      ({ width := 2, value := 15, signed := false, special_bits := [false, false, false, false], x_bits := [false, false, false, false] : IntConst }).signed = false :=
  based_literal_value_width (Option.some ['2']) false 'h' ['f'] 0 [Diag.tooLarge 0] _ rfl

/-- C2 (counterexample): in the duplicate-port scenario the duplicate
error cites both spans, but the record left in the map is the second
declaration (span 20, implicit type), so the later variable fragment
merges against it and raises a "contradicting signs" error instead of
the "port already complete" error that keeping the first (complete)
declaration would produce. -/
theorem duplicate_port_counterexample :
    lower_module_ports_nonansi [] dupScenarioItems 0 =
      ([Diag.portDeclaredMultipleTimes 0 20 10, Diag.contradictingSigns 0 20 30],
        Except.ok ()) ∧
    (listGet (gatherPortDecls dupScenarioItems).decls 0).map PartialNonAnsiPort.span =
      Option.some 20 ∧
    Diag.portAlreadyComplete 0 31 10 ∉ (lower_module_ports_nonansi [] dupScenarioItems 0).1 :=
  ⟨rfl, rfl, by decide⟩

/-- C2 (amended): a duplicate bare port declaration emits one error
diagnostic citing both declaration spans and leaves the merge order
unchanged, but the record that remains associated with the name — and is
used for all later merging — is the most recent duplicate; the earlier
record is replaced. -/
theorem duplicate_port_keeps_last (st : GatherSt) (pd : PortDecl) (n : VarDeclName)
    (prev : PartialNonAnsiPort) (h : listGet st.decls n.name = Option.some prev) :
    gatherStep st pd n =
      { st with
        decls := (listInsert st.decls n.name (partialPortOf pd n)).2
        diags := st.diags ++ [Diag.portDeclaredMultipleTimes n.name n.name_span prev.span]
        failed := true } ∧
    listGet (gatherStep st pd n).decls n.name = Option.some (partialPortOf pd n) ∧
    (gatherStep st pd n).decl_order = st.decl_order := by
  have h1 : (listInsert st.decls n.name (partialPortOf pd n)).1 = Option.some prev := by
    rw [listInsert_fst]; exact h
  have hpair : listInsert st.decls n.name (partialPortOf pd n) =
      (Option.some prev, (listInsert st.decls n.name (partialPortOf pd n)).2) :=
    Prod.ext h1 rfl
  have hstep : gatherStep st pd n =
      { st with
        decls := (listInsert st.decls n.name (partialPortOf pd n)).2
        diags := st.diags ++ [Diag.portDeclaredMultipleTimes n.name n.name_span prev.span]
        failed := true } := by
    unfold gatherStep
    simp only []
    rw [hpair]
  refine ⟨hstep, ?_, ?_⟩
  · rw [hstep]
    exact listGet_listInsert_self _ _ _
  · rw [hstep]

/-- C2 (witness): the amended theorem applied to a map already holding
an entry for name 0. -/
theorem duplicate_port_keeps_last_witness :
    listGet (gatherStep
        { decl_order := [0]
          decls := [(0, partialPortOf dupScenarioFirst
            { name := 0, name_span := 10, span := 11, dims := [], init := Option.none })]
          diags := [], failed := false }
        dupScenarioSecond
        { name := 0, name_span := 20, span := 21, dims := [], init := Option.none }).decls 0 =
      Option.some (partialPortOf dupScenarioSecond
        { name := 0, name_span := 20, span := 21, dims := [], init := Option.none }) ∧
    (gatherStep
        { decl_order := [0]
          decls := [(0, partialPortOf dupScenarioFirst
            { name := 0, name_span := 10, span := 11, dims := [], init := Option.none })]
          diags := [], failed := false }
        dupScenarioSecond
        { name := 0, name_span := 20, span := 21, dims := [], init := Option.none }).decl_order =
      [0] := by
  have hmain := duplicate_port_keeps_last
    { decl_order := [0]
      decls := [(0, partialPortOf dupScenarioFirst
        { name := 0, name_span := 10, span := 11, dims := [], init := Option.none })]
      diags := [], failed := false }
    dupScenarioSecond
    { name := 0, name_span := 20, span := 21, dims := [], init := Option.none }
    (partialPortOf dupScenarioFirst
      { name := 0, name_span := 10, span := 11, dims := [], init := Option.none })
    rfl
  exact ⟨hmain.2.1, hmain.2.2⟩

/-- C3: the non-ANSI reconciliation merge is computed but never attached
to the port HIR: `lower_module_ports_nonansi` returns `Ok(())` for every
input, discarding the merge, and the `hir::Port` node built by
`lower_port` carries exactly the direction, type and default expression
written on the port entry itself, regardless of the module body. -/
theorem nonansi_merge_never_attached :
    (∀ (ports : List Port) (items : List HierarchyItem) (fs : Span),
      (lower_module_ports_nonansi ports items fs).2 = Except.ok ()) ∧
    (∀ (nid : NodeId) (sp : Span) (nm : Name) (nsp : Span) (d : PortDir)
      (kind : Option PortKind) (ty : AstType) (dims : List TypeDim)
      (expr : Option ExprTok) (ds : List Diag) (p : HirPort),
      lower_port nid (Port.named sp nm nsp (Option.some d) kind ty dims expr) =
        (ds, Outcome.ok p) →
      p.dir = d ∧ p.ty = ty ∧ p.default = expr ∧ ds = []) := by
  constructor
  · intro ports items fs
    rfl
  · intro nid sp nm nsp d kind ty dims expr ds p h
    have h1 := congrArg Prod.fst h
    have h2 := congrArg Prod.snd h
    simp only [lower_port] at h1 h2
    injection h2 with h2'
    subst h2'
    exact ⟨rfl, rfl, rfl, h1.symm⟩

/-- C3 (witness): the theorem applied to a concrete input-direction
port with an implicit type and no default. -/
theorem nonansi_merge_never_attached_witness :
    (lower_module_ports_nonansi [] [] 0).2 = Except.ok () ∧
    (({ id := 0, name := 1, name_span := 2, span := 3, dir := PortDir.input, ty := ⟨TypeData.implicitType, TypeSign.none, []⟩, default := Option.none } : HirPort).dir = PortDir.input ∧
      ({ id := 0, name := 1, name_span := 2, span := 3, dir := PortDir.input, ty := ⟨TypeData.implicitType, TypeSign.none, []⟩, default := Option.none } : HirPort).ty = ⟨TypeData.implicitType, TypeSign.none, []⟩ ∧
      ({ id := 0, name := 1, name_span := 2, span := 3, dir := PortDir.input, ty := ⟨TypeData.implicitType, TypeSign.none, []⟩, default := Option.none } : HirPort).default = Option.none ∧
      ([] : List Diag) = []) :=
  ⟨nonansi_merge_never_attached.1 [] [] 0,
   nonansi_merge_never_attached.2 0 3 1 2 PortDir.input Option.none
     ⟨TypeData.implicitType, TypeSign.none, []⟩ [] Option.none [] _ rfl⟩

/-- C4 (counterexample): lowering a named port without a direction does
not propagate a structured failure with a prior diagnostic — it panics
with "port missing direction" and emits no diagnostic at all. -/
theorem port_missing_direction_counterexample :
    lower_port 0 (Port.named 3 1 2 Option.none Option.none
        ⟨TypeData.implicitType, TypeSign.none, []⟩ [] Option.none) =
      ([], Outcome.panicked "port missing direction") ∧
    (Outcome.panicked "port missing direction" : Outcome HirPort) ≠ Outcome.err ∧
    ([] : List Diag).length = 0 :=
  ⟨rfl, fun hcontra => Outcome.noConfusion hcontra, rfl⟩

/-- C4 (amended): for every port node reaching `lower_port` without a
direction, lowering panics with the message "port missing direction",
aborting the process without a structured failure value and without
emitting any diagnostic. -/
theorem port_missing_direction_panics (nid : NodeId) (sp : Span) (nm : Name)
    (nsp : Span) (kind : Option PortKind) (ty : AstType) (dims : List TypeDim)
    (expr : Option ExprTok) :
    lower_port nid (Port.named sp nm nsp Option.none kind ty dims expr) =
      ([], Outcome.panicked "port missing direction") := rfl

/-- C5 (counterexample): a package whose body contains an instantiation
— an item kind with no handling rule in `lower_package` — is not skipped
with a warning: package lowering emits a "cannot appear in a package"
error and propagates a fatal failure. -/
theorem package_item_fatal_counterexample :
    lower_package 0 1 2 3 [HierarchyItem.inst 4 5 []] 0 =
      ([Diag.cannotAppearInPackage 5], [], Except.error (), 0) ∧
    (Diag.cannotAppearInPackage 5).severity = Severity.error :=
  ⟨rfl, rfl⟩

/-- C5 (amended): module body lowering never propagates a failure and
skips every item kind without a handling rule by logging a warning and
leaving the block state unchanged; package body lowering does not share
this policy — it skips only subroutine declarations with a warning and
fatally rejects every other unhandled item kind with a "cannot appear in
a package" error. -/
theorem module_vs_package_skip_policy :
    (∀ (rib : NodeId) (items : List HierarchyItem) (st : Nat),
      ∃ mb st' logs, lower_module_block rib items st = (Except.ok mb, st', logs)) ∧
    (∀ (acc : BlockAcc) (item : HierarchyItem), moduleBlockUnhandled item = true →
      lower_module_block_step acc item =
        { acc with logs := acc.logs ++ [Log.skipUnsupportedItem] }) ∧
    (∀ (rib : NodeId) (names : List (Name × Span × NodeId))
      (decls params : List NodeId) (st : Nat) (logs : List Log)
      (item : HierarchyItem) (rest : List HierarchyItem),
      packageUnhandled item = true →
      lower_package_items rib names decls params st logs (item :: rest) =
        ([Diag.cannotAppearInPackage (itemSpan item)], logs, Except.error (), st)) ∧
    (∀ (rib : NodeId) (names : List (Name × Span × NodeId))
      (decls params : List NodeId) (st : Nat) (logs : List Log)
      (nm : Name) (sp : Span) (rest : List HierarchyItem),
      lower_package_items rib names decls params st logs
          (HierarchyItem.subroutineDecl nm sp :: rest) =
        lower_package_items rib names decls params st
          (logs ++ [Log.ignoreUnsupportedSubroutine nm]) rest) := by
  refine ⟨?_, ?_, ?_, ?_⟩
  · intro rib items st
    exact ⟨_, _, _, rfl⟩
  · intro acc item h
    cases item <;> first
      | rfl
      | exact absurd h (by simp [moduleBlockUnhandled])
  · intro rib names decls params st logs item rest h
    cases item <;> first
      | rfl
      | exact absurd h (by simp [packageUnhandled])
  · intro rib names decls params st logs nm sp rest
    rfl

/-- C5 (witness): the amended theorem applied to a modport declaration
in a module block and an instantiation at the head of a package body. -/
theorem module_vs_package_skip_policy_witness :
    lower_module_block_step
        { next_rib := 0, insts := [], decls := [], procs := [], gens := [], params := [], assigns := [], st := 0, logs := [] }
        (HierarchyItem.modportDecl 7 9) =
      { next_rib := 0, insts := [], decls := [], procs := [], gens := [], params := [], assigns := [], st := 0, logs := [Log.skipUnsupportedItem] } ∧
    lower_package_items 0 [] [] [] 0 [] [HierarchyItem.inst 4 5 []] =
      ([Diag.cannotAppearInPackage (itemSpan (HierarchyItem.inst 4 5 []))], [],
        Except.error (), 0) :=
  ⟨module_vs_package_skip_policy.2.1 _ (HierarchyItem.modportDecl 7 9) rfl,
   module_vs_package_skip_policy.2.2.1 0 [] [] [] 0 [] (HierarchyItem.inst 4 5 []) [] rfl⟩

/-- C6: event-expression flattening produces one event per edge leaf in
left-to-right tree order, each carrying exactly the `iff` conditions on
the path from the root to that leaf, and the condition stack is restored
after every subtree; in particular `posedge a or (negedge b iff c)`
yields the `posedge a` event with an empty stack followed by the
`negedge b` event with stack `[c]`. -/
theorem event_flattening_path_conditions :
    (∀ (e : EventExpr) (pid : NodeId) (into : List Event) (stack : List ExprTok),
      lower_event_expr e pid into stack = (into ++ eventLeaves e stack, stack)) ∧
    (∀ (a b c : ExprTok) (pid : NodeId),
      lower_event_expr
          (EventExpr.or 0 (EventExpr.edge 1 EdgeIdent.posedge a)
            (EventExpr.iff 2 (EventExpr.edge 3 EdgeIdent.negedge b) c)) pid [] [] =
        ([{ span := 1, edge := EdgeIdent.posedge, expr := a, iff := [] },
          { span := 3, edge := EdgeIdent.negedge, expr := b, iff := [c] }], [])) := by
  have main : ∀ (e : EventExpr) (pid : NodeId) (into : List Event)
      (stack : List ExprTok),
      lower_event_expr e pid into stack = (into ++ eventLeaves e stack, stack) := by
    intro e
    induction e with
    | edge sp kind value =>
      intro pid into stack
      rfl
    | iff sp ex cond ih =>
      intro pid into stack
      unfold lower_event_expr
      rw [ih]
      simp [eventLeaves, List.dropLast_concat]
    | or sp lhs rhs ihl ihr =>
      intro pid into stack
      unfold lower_event_expr
      rw [ihl]
      show lower_event_expr rhs pid (into ++ eventLeaves lhs stack) stack = _
      rw [ihr]
      simp [eventLeaves]
  refine ⟨main, ?_⟩
  intro a b c pid
  rw [main]
  rfl

/-- C7: the first field of a non-empty pattern fixes the interpretation
of the whole pattern; each later field violating it yields one non-fatal
diagnostic (citing the offending field and the deciding first field) and
is dropped, so the result contains exactly the conforming fields in
order; in a repeat pattern every field after the first is flagged and
dropped; the empty pattern lowers to the distinct empty marker. -/
theorem pattern_first_field_decides :
    (∀ sp : Span, lower_pattern_expr sp [] = ([], ExprKind.emptyPattern)) ∧
    (∀ (sp : Span) (f : PatternField) (rest : List PatternField) (e : ExprTok),
      f.data = PatternFieldData.exprField e →
      lower_pattern_expr sp (f :: rest) =
        (patternPosDiags f.span (f :: rest),
          ExprKind.positionalPattern (patternPosKept (f :: rest)))) ∧
    (∀ (sp : Span) (f : PatternField) (rest : List PatternField) (c : ExprTok)
      (es : List ExprTok),
      f.data = PatternFieldData.repeatField c es →
      lower_pattern_expr sp (f :: rest) =
        (rest.map (fun g => Diag.fieldAfterRepeatPattern g.span),
          ExprKind.repeatPattern c es)) ∧
    (∀ (sp : Span) (f : PatternField) (rest : List PatternField),
      isNamedPatternField f.data = true →
      lower_pattern_expr sp (f :: rest) =
        (patternNamedDiags f.span (f :: rest),
          ExprKind.namedPattern (patternNamedKept (f :: rest)))) := by
  refine ⟨?_, ?_, ?_, ?_⟩
  · intro sp
    rfl
  · intro sp f rest e hf
    obtain ⟨fsp, fdata⟩ := f
    simp only at hf
    subst hf
    unfold lower_pattern_expr
    simp only []
    rw [foldl_patternPosStep]
    simp
  · intro sp f rest c es hf
    obtain ⟨fsp, fdata⟩ := f
    simp only at hf
    subst hf
    rfl
  · intro sp f rest hf
    obtain ⟨fsp, fdata⟩ := f
    simp only at hf
    cases fdata with
    | exprField e => exact absurd hf (by simp [isNamedPatternField])
    | repeatField c es => exact absurd hf (by simp [isNamedPatternField])
    | typeField ty e =>
      unfold lower_pattern_expr
      simp only []
      rw [foldl_patternNamedStep]
      simp
    | memberField m e =>
      unfold lower_pattern_expr
      simp only []
      rw [foldl_patternNamedStep]
      simp
    | defaultField e =>
      unfold lower_pattern_expr
      simp only []
      rw [foldl_patternNamedStep]
      simp

/-- C7 (witness): the pattern `'{1, foo: 2}` — a positional first field
followed by a named field — lowers to a positional-only pattern keeping
the first expression, with exactly one inconsistent-field diagnostic
citing the named field and the deciding first field. -/
theorem pattern_first_field_decides_witness :
    lower_pattern_expr 9
        [{ span := 0, data := PatternFieldData.exprField 10 },
         { span := 1, data := PatternFieldData.memberField 20 21 }] =
      (patternPosDiags 0
          [{ span := 0, data := PatternFieldData.exprField 10 },
           { span := 1, data := PatternFieldData.memberField 20 21 }],
        ExprKind.positionalPattern (patternPosKept
          [{ span := 0, data := PatternFieldData.exprField 10 },
           { span := 1, data := PatternFieldData.memberField 20 21 }])) ∧
    patternPosDiags 0
        [{ span := 0, data := PatternFieldData.exprField 10 },
         { span := 1, data := PatternFieldData.memberField 20 21 }] =
      [Diag.notPositionalPattern 1 0] ∧
    patternPosKept
        [{ span := 0, data := PatternFieldData.exprField 10 },
         { span := 1, data := PatternFieldData.memberField 20 21 }] = [10] :=
  ⟨pattern_first_field_decides.2.1 9 { span := 0, data := PatternFieldData.exprField 10 }
      [{ span := 1, data := PatternFieldData.memberField 20 21 }] 10 rfl,
    rfl, rfl⟩

/-- C9: the non-ANSI sign merge satisfies `merge(None, s) = s`,
`merge(s, None) = s` and `merge(s, s) = s` with no diagnostic, and for
two differing explicit signs it emits exactly one "contradicting signs"
error while deterministically keeping the port's own sign rather than
silently overwriting it with the fragment's sign. -/
theorem sign_merge_algebra :
    (∀ (nm : Name) (ps aspan : Span) (s : TypeSign),
      mergeSign nm ps aspan TypeSign.none s = (s, []) ∧
      mergeSign nm ps aspan s TypeSign.none = (s, []) ∧
      mergeSign nm ps aspan s s = (s, [])) ∧
    (∀ (nm : Name) (ps aspan : Span) (a b : TypeSign),
      a ≠ b → a ≠ TypeSign.none → b ≠ TypeSign.none →
      mergeSign nm ps aspan a b = (a, [Diag.contradictingSigns nm ps aspan]) ∧
      (Diag.contradictingSigns nm ps aspan).severity = Severity.error) := by
  constructor
  · intro nm ps aspan s
    refine ⟨?_, ?_, ?_⟩ <;> cases s <;> rfl
  · intro nm ps aspan a b hab ha hb
    refine ⟨?_, rfl⟩
    cases a <;> cases b <;> first
      | rfl
      | exact absurd rfl hab
      | exact absurd rfl ha
      | exact absurd rfl hb

/-- C9 (witness): the sign-merge algebra at concrete signs, including
the contradicting pair `signed`/`unsigned`. -/
theorem sign_merge_algebra_witness :
    mergeSign 0 1 2 TypeSign.none TypeSign.signed = (TypeSign.signed, []) ∧
    mergeSign 0 1 2 TypeSign.signed TypeSign.none = (TypeSign.signed, []) ∧
    mergeSign 0 1 2 TypeSign.unsigned TypeSign.unsigned = (TypeSign.unsigned, []) ∧
    mergeSign 0 1 2 TypeSign.signed TypeSign.unsigned =
      (TypeSign.signed, [Diag.contradictingSigns 0 1 2]) :=
  ⟨(sign_merge_algebra.1 0 1 2 TypeSign.signed).1,
   (sign_merge_algebra.1 0 1 2 TypeSign.signed).2.1,
   (sign_merge_algebra.1 0 1 2 TypeSign.unsigned).2.2,
   (sign_merge_algebra.2 0 1 2 TypeSign.signed TypeSign.unsigned (by decide)
      (by decide) (by decide)).1⟩

/-- C8: for a based literal over base `h`, `o` or `b` that lowers
successfully, both masks have length `digitCount × bitsPerDigit(base)`;
bit `i` of the special mask is set exactly when digit `i / bitsPerDigit`
is written `x/X/z/Z/?` and bit `i` of the x mask exactly when it is
written `x/X`; every set x bit is a set special bit; and the stored
value is parsed from the digit text with every special digit replaced by
`0` beforehand. -/
theorem based_literal_masks (ms : Option (List Char)) (sg : Bool) (base : Char)
    (v : List Char) (sp : Span) (ds : List Diag) (c : IntConst)
    (hb : base = 'h' ∨ base = 'o' ∨ base = 'b')
    (h : lowerBasedInteger ms sg base v sp = (ds, Except.ok c)) :
    c.special_bits.length = v.length * bitsPerDigit base ∧
    c.x_bits.length = v.length * bitsPerDigit base ∧
    (∀ i : Nat, c.special_bits[i]? = (v[i / bitsPerDigit base]?).map isSpecialDigit) ∧
    (∀ i : Nat, c.x_bits[i]? = (v[i / bitsPerDigit base]?).map isXDigit) ∧
    (∀ i : Nat, c.x_bits[i]? = Option.some true →
      c.special_bits[i]? = Option.some true) ∧
    (∃ radix parsed, radixOf base = Option.some radix ∧
      parseSigned radix (v.map substituteUnknown) = Option.some parsed ∧
      c.value = parsed) := by
  have hk : 0 < bitsPerDigit base := by
    rcases hb with rfl | rfl | rfl <;> decide
  unfold lowerBasedInteger at h
  split at h
  · simp at h
  · rename_i radix hr
    split at h
    · simp at h
    · rename_i parsed hp
      simp only [] at h
      split at h
      · simp at h
      · rename_i size hs
        have h2 := congrArg Prod.snd h
        simp only at h2
        injection h2 with h2'
        subst h2'
        refine ⟨?_, ?_, ?_, ?_, ?_, radix, parsed, hr, hp, rfl⟩
        · show ((v.flatMap fun ch => List.replicate (bitsPerDigit base) ch).map
            isSpecialDigit).length = _
          rw [List.length_map, flatMap_replicate_length]
        · show ((v.flatMap fun ch => List.replicate (bitsPerDigit base) ch).map
            isXDigit).length = _
          rw [List.length_map, flatMap_replicate_length]
        · intro i
          show ((v.flatMap fun ch => List.replicate (bitsPerDigit base) ch).map
            isSpecialDigit)[i]? = _
          rw [List.getElem?_map, flatMap_replicate_getElem v _ hk i]
        · intro i
          show ((v.flatMap fun ch => List.replicate (bitsPerDigit base) ch).map
            isXDigit)[i]? = _
          rw [List.getElem?_map, flatMap_replicate_getElem v _ hk i]
        · intro i hxi
          show ((v.flatMap fun ch => List.replicate (bitsPerDigit base) ch).map
            isSpecialDigit)[i]? = _
          replace hxi : ((v.flatMap fun ch =>
              List.replicate (bitsPerDigit base) ch).map isXDigit)[i]? =
              Option.some true := hxi
          rw [List.getElem?_map, flatMap_replicate_getElem v _ hk i] at hxi ⊢
          cases hv : v[i / bitsPerDigit base]? with
          | none =>
            rw [hv] at hxi
            exact absurd hxi (by simp)
          | some ch =>
            rw [hv] at hxi
            simp only [Option.map_some', Option.some.injEq] at hxi ⊢
            exact isXDigit_isSpecialDigit ch hxi

/-- C8 (witness): the mask theorem applied to the binary literal with
digit text `1x?`. -/
theorem based_literal_masks_witness :
    ∃ radix parsed, radixOf 'b' = Option.some radix ∧
      parseSigned radix ((['1', 'x', '?'] : List Char).map substituteUnknown) =
        Option.some parsed ∧
      ({ width := 3, value := 4, signed := false, special_bits := [false, true, true], x_bits := [false, true, false] : IntConst }).value = parsed :=
  (based_literal_masks Option.none false 'b' ['1', 'x', '?'] 0 []
    { width := 3, value := 4, signed := false, special_bits := [false, true, true], x_bits := [false, true, false] }
    (Or.inr (Or.inr rfl)) rfl).2.2.2.2.2

/-- C10: a time literal with well-formed digit strings lowers, in exact
rational arithmetic, to the rational whose numerator is the
concatenation of the integer and fractional digits and whose denominator
is `10 ^ fractionalDigitCount`, divided exactly by `1000` once per unit
step from seconds down to the literal's unit; malformed digit strings
are the fatal "not a number literal" error. -/
theorem time_literal_exact_rational :
    (∀ (sp : Span) (int : List Char) (frac : Option (List Char)) (unit : TimeUnit),
      int ≠ [] → (∀ ch ∈ int, isDigit10 ch = true) →
      (∀ fs, frac = Option.some fs → ∀ ch ∈ fs, isDigit10 ch = true) →
      lower_time_literal sp int frac unit =
        ([], Except.ok (ExprKind.timeConst
          ((decimalValue (int ++ frac.getD []) : ℚ) / 10 ^ (frac.getD []).length /
            1000 ^ timeUnitMagnitude unit)))) ∧
    (∀ (sp : Span) (int : List Char) (frac : Option (List Char)) (unit : TimeUnit),
      parseSigned 10 (int ++ frac.getD []) = Option.none →
      lower_time_literal sp int frac unit =
        ([Diag.notNumberLiteral sp], Except.error ())) := by
  constructor
  · intro sp int frac unit hne hdig hfrac
    have hdigall : ∀ ch ∈ int ++ frac.getD [], isDigit10 ch = true := by
      intro ch hch
      rcases List.mem_append.1 hch with hch | hch
      · exact hdig ch hch
      · cases frac with
        | none => simp at hch
        | some fs => exact hfrac fs rfl ch hch
    have hnum : parseSigned 10 (int ++ frac.getD []) =
        Option.some ((decimalValue (int ++ frac.getD []) : Nat) : Int) := by
      apply parseSigned_ten_digits _ _ hdigall
      intro hcontra
      exact hne (List.append_eq_nil.1 hcontra).1
    have hmapzero : (frac.getD []).map (fun _ => '0') =
        List.replicate (frac.getD []).length '0' := by
      rw [List.eq_replicate_iff]
      refine ⟨by rw [List.length_map], ?_⟩
      intro b hbmem
      obtain ⟨ch, _, rfl⟩ := List.mem_map.1 hbmem
      rfl
    have hden : parseSigned 10 ('1' :: (frac.getD []).map (fun _ => '0')) =
        Option.some ((10 : Int) ^ (frac.getD []).length) := by
      rw [hmapzero]
      exact parseSigned_denom _
    have hfix : parse_fixed_point_number sp int frac =
        ([], Except.ok ((decimalValue (int ++ frac.getD []) : ℚ) /
          (10 : ℚ) ^ (frac.getD []).length)) := by
      unfold parse_fixed_point_number
      simp only [hnum, hden]
      congr 2
      push_cast
      ring
    unfold lower_time_literal
    rw [hfix]
    simp only []
    rw [foldl_div_thousand]
  · intro sp int frac unit hfail
    have hfix : parse_fixed_point_number sp int frac =
        ([Diag.notNumberLiteral sp], Except.error ()) := by
      unfold parse_fixed_point_number
      simp only [hfail]
    unfold lower_time_literal
    rw [hfix]

/-- C10 (witness): `15.25ns` lowers to `1525 / 10^2 / 1000^3` seconds,
and the malformed digit string `a` is the fatal "not a number literal"
error. -/
theorem time_literal_exact_rational_witness :
    lower_time_literal 0 ['1', '5'] (Option.some ['2', '5']) TimeUnit.nanoSecond =
      ([], Except.ok (ExprKind.timeConst
        ((decimalValue ((['1', '5'] : List Char) ++
            (Option.some ['2', '5'] : Option (List Char)).getD []) : ℚ) /
          10 ^ ((Option.some ['2', '5'] : Option (List Char)).getD []).length /
          1000 ^ timeUnitMagnitude TimeUnit.nanoSecond))) ∧
    lower_time_literal 1 ['a'] Option.none TimeUnit.second =
      ([Diag.notNumberLiteral 1], Except.error ()) :=
  ⟨time_literal_exact_rational.1 0 ['1', '5'] (Option.some ['2', '5'])
      TimeUnit.nanoSecond (by decide) (by decide)
      (fun fs hfs => by cases hfs; decide),
   time_literal_exact_rational.2 1 ['a'] Option.none TimeUnit.second (by decide)⟩

end Moore
